import Mathlib

/-!
Verification of the configuration-management core: entity model,
storage serialization, tree resolver, event bus, and the CRUD
orchestrator (service + repository), shallowly embedded from the
Python sources under `src/backend/src`.
-/

namespace ConfigMgmt

/-- UUIDs are modelled as natural numbers (only identity matters). -/
abbrev UUID := Nat

/-- Timestamps (`datetime`) are modelled as opaque natural numbers. -/
abbrev Timestamp := Nat

/-- JSON values, the target of `json.dumps` / source of `json.loads`.
Numbers are restricted to integers; every constructor is
JSON-representable. -/
inductive JValue where
  | jnull : JValue
  | jbool (b : Bool) : JValue
  | jnum (n : Int) : JValue
  | jstr (s : String) : JValue
  | jarr (items : List JValue) : JValue
  | jobj (fields : List (String × JValue)) : JValue


/-- `ValidationRule` from `src/domain/entities/configuration.py`:
`rule_type : str`, `value : Any` (modelled as a JSON value). -/
structure ValidationRule where
  rule_type : String
  value : JValue


/-- `ParentCondition` from `src/domain/entities/configuration.py`:
`default_value : Any`, `operator : str`, `value : Any`. -/
structure ParentCondition where
  default_value : JValue
  operator : String
  value : JValue


/-- `Translation` from `src/domain/entities/configuration.py`:
`description : str | None`, `label : str`, `language : str`. -/
structure Translation where
  description : Option String
  label : String
  language : String


/-- The `Configuration` domain entity
(`src/domain/entities/configuration.py`), fields in declaration order. -/
structure Configuration where
  active : Bool
  created_at : Timestamp
  data_type : String
  default_value : Option String
  description : Option String
  id : UUID
  key : String
  label : String
  parent_config_id : Option UUID
  parent_conditions : List ParentCondition
  translations : List Translation
  updated_at : Timestamp
  validation_rules : List ValidationRule


/-- The database row (`src/infrastructure/database/models.py`).  The three
sub-structure columns hold the serialized blob written by the repository
(`json.dumps` output, modelled at the JSON-value level); `none` models a
NULL / absent blob. -/
structure ConfigurationModel where
  active : Bool
  created_at : Timestamp
  data_type : String
  default_value : Option String
  description : Option String
  id : UUID
  key : String
  label : String
  parent_config_id : Option UUID
  parent_conditions : Option JValue
  translations : Option JValue
  updated_at : Timestamp
  validation_rules : Option JValue


/-! ## Serialization (repository `create` / `update` dumps) -/

/-- One element of the `json.dumps` list for `validation_rules`
(repository lines 43–45). -/
def dumpValidationRule (r : ValidationRule) : JValue :=
  .jobj [("rule_type", .jstr r.rule_type), ("value", r.value)]

/-- `json.dumps([...])` for `validation_rules`. -/
def dumpsValidationRules (rs : List ValidationRule) : JValue :=
  .jarr (rs.map dumpValidationRule)

/-- One element of the `json.dumps` list for `parent_conditions`
(repository lines 47–52). -/
def dumpParentCondition (c : ParentCondition) : JValue :=
  .jobj [("operator", .jstr c.operator), ("value", c.value),
         ("default_value", c.default_value)]

/-- `json.dumps([...])` for `parent_conditions`. -/
def dumpsParentConditions (cs : List ParentCondition) : JValue :=
  .jarr (cs.map dumpParentCondition)

/-- Encoding of an optional string (`None` becomes JSON null). -/
def jOfOptionStr : Option String → JValue
  | none => .jnull
  | some s => .jstr s

/-- One element of the `json.dumps` list for `translations`
(repository lines 53–55). -/
def dumpTranslation (t : Translation) : JValue :=
  .jobj [("language", .jstr t.language), ("label", .jstr t.label),
         ("description", jOfOptionStr t.description)]

/-- `json.dumps([...])` for `translations`. -/
def dumpsTranslations (ts : List Translation) : JValue :=
  .jarr (ts.map dumpTranslation)

/-! ## Deserialization (`_model_to_domain`, repository lines 182–213) -/

/-- Dictionary lookup on a JSON object's field list. -/
def jLookup (fields : List (String × JValue)) (k : String) : Option JValue :=
  (fields.find? (fun p => p.1 == k)).map (fun p => p.2)

/-- Decode every element or fail, mirroring a Python list comprehension
in which the element constructor may raise. -/
def decodeAll (f : α → Option β) : List α → Option (List β)
  | [] => some []
  | x :: xs =>
    match f x, decodeAll f xs with
    | some y, some ys => some (y :: ys)
    | _, _ => none

/-- `ValidationRule(**r)`: pydantic requires `rule_type` to be a string
and `value` to be present. -/
def decodeValidationRule : JValue → Option ValidationRule
  | .jobj fs =>
    match jLookup fs "rule_type", jLookup fs "value" with
    | some (.jstr rt), some v => some ⟨rt, v⟩
    | _, _ => none
  | _ => none

/-- `[ValidationRule(**r) for r in json.loads(blob)]`. -/
def decodeValidationRules : JValue → Option (List ValidationRule)
  | .jarr xs => decodeAll decodeValidationRule xs
  | _ => none

/-- `ParentCondition(**c)`: `operator` must be a string; `value` and
`default_value` must be present. -/
def decodeParentCondition : JValue → Option ParentCondition
  | .jobj fs =>
    match jLookup fs "operator", jLookup fs "value", jLookup fs "default_value" with
    | some (.jstr op), some v, some dv => some ⟨dv, op, v⟩
    | _, _, _ => none
  | _ => none

/-- `[ParentCondition(**c) for c in json.loads(blob)]`. -/
def decodeParentConditions : JValue → Option (List ParentCondition)
  | .jarr xs => decodeAll decodeParentCondition xs
  | _ => none

/-- `Translation(**t)`: `language` and `label` must be strings;
`description` is optional (absent or null become `None`). -/
def decodeTranslation : JValue → Option Translation
  | .jobj fs =>
    match jLookup fs "language", jLookup fs "label" with
    | some (.jstr lang), some (.jstr lbl) =>
      match jLookup fs "description" with
      | none => some ⟨none, lbl, lang⟩
      | some .jnull => some ⟨none, lbl, lang⟩
      | some (.jstr d) => some ⟨some d, lbl, lang⟩
      | some _ => none
    | _, _ => none
  | _ => none

/-- `[Translation(**t) for t in json.loads(blob)]`. -/
def decodeTranslations : JValue → Option (List Translation)
  | .jarr xs => decodeAll decodeTranslation xs
  | _ => none

/-- `_model_to_domain` (repository lines 182–213): a falsy blob yields
the empty list, otherwise the blob is parsed; a parse/shape failure is a
raised pydantic error, modelled as `none`. -/
def modelToDomain (m : ConfigurationModel) : Option Configuration :=
  match (match m.validation_rules with
         | none => some []
         | some j => decodeValidationRules j) with
  | none => none
  | some vrs =>
    match (match m.parent_conditions with
           | none => some []
           | some j => decodeParentConditions j) with
    | none => none
    | some pcs =>
      match (match m.translations with
             | none => some []
             | some j => decodeTranslations j) with
      | none => none
      | some trs =>
        some
          { active := m.active
            created_at := m.created_at
            data_type := m.data_type
            default_value := m.default_value
            description := m.description
            id := m.id
            key := m.key
            label := m.label
            parent_config_id := m.parent_config_id
            parent_conditions := pcs
            translations := trs
            updated_at := m.updated_at
            validation_rules := vrs }

/-- The model row built by repository `create` (lines 36–57).  The row's
timestamps come from the database column defaults, so they are passed in
separately; the entity's own timestamps are not copied. -/
def domainToModel (c : Configuration) (created_at updated_at : Timestamp) :
    ConfigurationModel :=
  { active := c.active
    created_at := created_at
    data_type := c.data_type
    default_value := c.default_value
    description := c.description
    id := c.id
    key := c.key
    label := c.label
    parent_config_id := c.parent_config_id
    parent_conditions := some (dumpsParentConditions c.parent_conditions)
    translations := some (dumpsTranslations c.translations)
    updated_at := updated_at
    validation_rules := some (dumpsValidationRules c.validation_rules) }

/-! ## Round-trip lemmas -/

theorem decode_dumpValidationRule (r : ValidationRule) :
    decodeValidationRule (dumpValidationRule r) = some r := by
  cases r; rfl

theorem decode_dumpParentCondition (c : ParentCondition) :
    decodeParentCondition (dumpParentCondition c) = some c := by
  cases c; rfl

theorem decode_dumpTranslation (t : Translation) :
    decodeTranslation (dumpTranslation t) = some t := by
  obtain ⟨d, lbl, lang⟩ := t
  cases d <;> rfl

theorem decodeAll_map_dump {f : β → Option α} {g : α → β}
    (h : ∀ x, f (g x) = some x) (l : List α) :
    decodeAll f (l.map g) = some l := by
  induction l with
  | nil => rfl
  | cons x xs ih => simp [decodeAll, h x, ih]

theorem decode_dumpsValidationRules (rs : List ValidationRule) :
    decodeValidationRules (dumpsValidationRules rs) = some rs :=
  decodeAll_map_dump decode_dumpValidationRule rs

theorem decode_dumpsParentConditions (cs : List ParentCondition) :
    decodeParentConditions (dumpsParentConditions cs) = some cs :=
  decodeAll_map_dump decode_dumpParentCondition cs

theorem decode_dumpsTranslations (ts : List Translation) :
    decodeTranslations (dumpsTranslations ts) = some ts :=
  decodeAll_map_dump decode_dumpTranslation ts

/-- Full round trip through the storage representation: only the
timestamps are replaced (by the database defaults). -/
theorem modelToDomain_domainToModel (c : Configuration) (t u : Timestamp) :
    modelToDomain (domainToModel c t u) =
      some { c with created_at := t, updated_at := u } := by
  simp [modelToDomain, domainToModel, decode_dumpsValidationRules,
    decode_dumpsParentConditions, decode_dumpsTranslations]

/-! ## Partial updates and domain events -/

/-- The `updates` keyword dictionary accepted by
`ConfigurationService.update_configuration` / applied by
`ConfigurationRepository.update`.  A `some` field means the key is
present in the dictionary.  (`id` and `created_at` are never sent by the
API layer and are not modelled.) -/
structure Updates where
  active : Option Bool := none
  data_type : Option String := none
  default_value : Option String := none
  description : Option String := none
  key : Option String := none
  label : Option String := none
  parent_config_id : Option UUID := none
  parent_conditions : Option (List ParentCondition) := none
  translations : Option (List Translation) := none
  validation_rules : Option (List ValidationRule) := none

/-- True when the dictionary carries no keys at all. -/
def Updates.isEmpty (u : Updates) : Bool :=
  u.active.isNone && u.data_type.isNone && u.default_value.isNone &&
  u.description.isNone && u.key.isNone && u.label.isNone &&
  u.parent_config_id.isNone && u.parent_conditions.isNone &&
  u.translations.isNone && u.validation_rules.isNone

/-- Domain events (`src/domain/events/configuration_events.py`),
dataclasses `ConfigurationCreated` / `ConfigurationUpdated` /
`ConfigurationDeleted`. -/
inductive DomainEvent where
  | created (config_id : UUID) (key label data_type : String)
      (created_at : Timestamp) (correlation_id : String)
      (configuration_entity : Configuration)
  | updated (config_id : UUID) (key label data_type : String)
      (updated_at : Timestamp) (changes : Updates) (correlation_id : String)
      (configuration_entity : Configuration)
  | deleted (config_id : UUID) (key label data_type : String)
      (deleted_at : Timestamp) (correlation_id : String)
      (configuration_entity : Configuration)

/-- `event.__class__.__name__`, the dispatch key used by the emitter. -/
def DomainEvent.typeName : DomainEvent → String
  | .created .. => "ConfigurationCreated"
  | .updated .. => "ConfigurationUpdated"
  | .deleted .. => "ConfigurationDeleted"

def DomainEvent.isCreated : DomainEvent → Bool
  | .created .. => true
  | _ => false

def DomainEvent.isUpdated : DomainEvent → Bool
  | .updated .. => true
  | _ => false

def DomainEvent.isDeleted : DomainEvent → Bool
  | .deleted .. => true
  | _ => false

/-- The `changes` payload of an update event. -/
def DomainEvent.changes? : DomainEvent → Option Updates
  | .updated _ _ _ _ _ ch _ _ => some ch
  | _ => none

/-- The `deleted_at` payload of a delete event. -/
def DomainEvent.deleted_at? : DomainEvent → Option Timestamp
  | .deleted _ _ _ _ d _ _ => some d
  | _ => none

/-- `correlation_id or "unknown"`: Python treats both `None` and the
empty string as falsy. -/
def corrOrUnknown : Option String → String
  | none => "unknown"
  | some s => if s = "" then "unknown" else s

/-- The persistent store plus the stream of events published so far. -/
structure RepoState where
  rows : List ConfigurationModel
  events : List DomainEvent

/-- Error taxonomy crossing the service boundary on these code paths:
the `ValueError` raised for a duplicate key (the spec's
`DuplicateKeyError`), and any persistence/decoding failure (the spec's
`StoreError`). -/
inductive SvcError where
  | duplicateKey
  | storeError

/-! ## Repository reads -/

/-- `get_by_key`: first row whose `key` column equals the argument
(string equality, hence case-sensitive). -/
def getByKey (st : RepoState) (key : String) : Option ConfigurationModel :=
  st.rows.find? (fun r => r.key == key)

/-- `get_by_id`: first row whose `id` column equals the argument. -/
def getById (st : RepoState) (config_id : UUID) : Option ConfigurationModel :=
  st.rows.find? (fun r => r.id == config_id)

/-- Replace the first element satisfying `p` (the single ORM instance
fetched and mutated by the repository). -/
def updateFirst (p : α → Bool) (f : α → α) : List α → List α
  | [] => []
  | x :: xs => if p x then f x :: xs else x :: updateFirst p f xs

/-- `list_all` (repository lines 95–108): the total is the count of all
rows; the page is `LIMIT limit OFFSET offset` over the stored order;
each model is converted, a conversion failure raising. -/
def list_all (st : RepoState) (limit offset : Nat) :
    Option (List Configuration) × Nat :=
  (decodeAll modelToDomain ((st.rows.drop offset).take limit), st.rows.length)

/-! ## Mutations (service + repository) -/

/-- Creation arguments of `ConfigurationService.create_configuration`;
optional list arguments default to `[]` via `x or []`. -/
structure CreateArgs where
  key : String
  label : String
  data_type : String
  description : Option String := none
  default_value : Option String := none
  validation_rules : Option (List ValidationRule) := none
  parent_config_id : Option UUID := none
  parent_conditions : Option (List ParentCondition) := none
  translations : Option (List Translation) := none

/-- The entity the service constructs (`Configuration(...)`, service
lines 43–55): fresh id, `active=True`, optional lists defaulted via
`x or []`, timestamps from the entity defaults. -/
def newEntity (args : CreateArgs) (newId : UUID) (now : Timestamp) :
    Configuration :=
  { id := newId
    key := args.key
    label := args.label
    description := args.description
    data_type := args.data_type
    default_value := args.default_value
    validation_rules := args.validation_rules.getD []
    parent_config_id := args.parent_config_id
    parent_conditions := args.parent_conditions.getD []
    translations := args.translations.getD []
    active := true
    created_at := now
    updated_at := now }

/-- `ConfigurationService.create_configuration` followed by
`ConfigurationRepository.create`.  `newId` models `uuid.uuid4()`, `now`
the database timestamp defaults, and `persistOk` whether the
flush/commit succeeds; on a persistence failure the transaction is
rolled back, so the state is returned unchanged and no event is
emitted.  The event is constructed and emitted only after the commit. -/
def create_configuration (st : RepoState) (args : CreateArgs) (newId : UUID)
    (now : Timestamp) (corr : Option String) (persistOk : Bool) :
    Except SvcError Configuration × RepoState :=
  match getByKey st args.key with
  | some _ => (.error .duplicateKey, st)
  | none =>
    match modelToDomain (domainToModel (newEntity args newId now) now now) with
    | none => (.error .storeError, st)
    | some created =>
      if persistOk then
        (.ok created,
          { rows := st.rows ++ [domainToModel (newEntity args newId now) now now]
            events := st.events ++ [DomainEvent.created created.id created.key
              created.label created.data_type created.created_at
              (corrOrUnknown corr) created] })
      else (.error .storeError, st)

/-- The per-field `setattr` loop of `ConfigurationRepository.update`
(lines 121–132): present keys overwrite the corresponding column, the
three sub-structure lists being re-serialized.  `updated_at` is
refreshed by the column's `onupdate` hook when an UPDATE is issued,
i.e. when at least one key is present. -/
def applyUpdates (m : ConfigurationModel) (u : Updates) (now : Timestamp) :
    ConfigurationModel :=
  if u.isEmpty then m else
  { m with
    active := u.active.getD m.active
    data_type := u.data_type.getD m.data_type
    default_value := match u.default_value with
      | some v => some v
      | none => m.default_value
    description := match u.description with
      | some v => some v
      | none => m.description
    key := u.key.getD m.key
    label := u.label.getD m.label
    parent_config_id := match u.parent_config_id with
      | some v => some v
      | none => m.parent_config_id
    parent_conditions := match u.parent_conditions with
      | some cs => some (dumpsParentConditions cs)
      | none => m.parent_conditions
    translations := match u.translations with
      | some ts => some (dumpsTranslations ts)
      | none => m.translations
    validation_rules := match u.validation_rules with
      | some rs => some (dumpsValidationRules rs)
      | none => m.validation_rules
    updated_at := now }

/-- `ConfigurationRepository.update` (lines 110–151): a missing id
returns `None` with no effect; otherwise the fetched row is mutated,
flushed and committed, and only then is a `ConfigurationUpdated` event
emitted whose `changes` is exactly the dictionary the repository
received. -/
def repo_update (st : RepoState) (config_id : UUID) (updates : Updates)
    (now : Timestamp) (corr : Option String) (persistOk : Bool) :
    Except SvcError (Option Configuration) × RepoState :=
  match getById st config_id with
  | none => (.ok none, st)
  | some m =>
    let m' := applyUpdates m updates now
    match modelToDomain m' with
    | none => (.error .storeError, st)
    | some updated =>
      if persistOk then
        let e := DomainEvent.updated updated.id updated.key updated.label
          updated.data_type updated.updated_at updates (corrOrUnknown corr)
          updated
        (.ok (some updated),
          { rows := updateFirst (fun r => r.id == config_id)
              (fun r => applyUpdates r updates now) st.rows
            events := st.events ++ [e] })
      else (.error .storeError, st)

/-- `ConfigurationService.update_configuration` (lines 69–81): the `key`
entry is popped from the dictionary before delegation to the
repository. -/
def update_configuration (st : RepoState) (config_id : UUID) (u : Updates)
    (now : Timestamp) (corr : Option String) (persistOk : Bool) :
    Except SvcError (Option Configuration) × RepoState :=
  repo_update st config_id { u with key := none } now corr persistOk

/-- `ConfigurationRepository.delete` (lines 153–180): a missing id
returns `False` with no effect; otherwise the entity is converted
before deletion, the row removed and committed, and only then a
`ConfigurationDeleted` event emitted, whose `deleted_at` is the
entity's stored `updated_at`. -/
def delete_configuration (st : RepoState) (config_id : UUID)
    (corr : Option String) (persistOk : Bool) :
    Except SvcError Bool × RepoState :=
  match getById st config_id with
  | none => (.ok false, st)
  | some m =>
    match modelToDomain m with
    | none => (.error .storeError, st)
    | some ent =>
      if persistOk then
        let e := DomainEvent.deleted ent.id ent.key ent.label ent.data_type
          ent.updated_at (corrOrUnknown corr) ent
        (.ok true,
          { rows := st.rows.eraseP (fun r => r.id == config_id)
            events := st.events ++ [e] })
      else (.error .storeError, st)

/-! ## Tree resolver (`ConfigurationService.get_parent_options`,
service lines 88–112) -/

/-- `[c for c in configs if c.parent_config_id == parent_id]`. -/
def childrenOf (configs : List Configuration) (parent_id : UUID) :
    List Configuration :=
  configs.filter (fun c => c.parent_config_id == some parent_id)

/-- The recursive `find_descendants` closure: grows the excluded-id set
with every child not yet excluded, recursing into it.  The Python
recursion is unbounded but terminates because each recursive call first
adds a fresh configuration id to the excluded set; the `fuel` argument
makes that measure explicit, and the top-level call supplies enough fuel
(`configs.length + 1`) for the bound never to bite. -/
def findDescendants (configs : List Configuration) :
    Nat → UUID → List UUID → List UUID
  | 0, _, excluded => excluded
  | fuel + 1, parent_id, excluded =>
    (childrenOf configs parent_id).foldl
      (fun exc c =>
        if c.id ∈ exc then exc
        else findDescendants configs fuel c.id (c.id :: exc))
      excluded

/-- The in-memory resolution over the already-fetched entity list
(service lines 92–112): with no current id every fetched configuration
is returned; otherwise the current id and all of its transitive
descendants are excluded. -/
def resolveParentOptions (configs : List Configuration) :
    Option UUID → List Configuration
  | none => configs
  | some current =>
    let excluded :=
      findDescendants configs (configs.length + 1) current [current]
    configs.filter (fun c => decide (c.id ∉ excluded))

/-- `ConfigurationService.get_parent_options` (service lines 88–112):
fetches `configs, _ = list_all(limit=1000)` — at most the first 1000
stored rows, with the default offset 0 — and resolves over that fetched
set only; a row-decoding failure raises (`none`). -/
def get_parent_options (st : RepoState) (current : Option UUID) :
    Option (List Configuration) :=
  match (list_all st 1000 0).1 with
  | none => none
  | some configs => some (resolveParentOptions configs current)

/-- The fold performed at one recursion level of `find_descendants`. -/
def fdFold (configs : List Configuration) (n : Nat) (l : List Configuration)
    (a : List UUID) : List UUID :=
  l.foldl
    (fun exc c =>
      if c.id ∈ exc then exc
      else findDescendants configs n c.id (c.id :: exc))
    a

/-- `x` is a transitive descendant of `root`: it is reachable from
`root` by following `parent_config_id` edges child-wards through the
entity set. -/
inductive Descendant (configs : List Configuration) (root : UUID) :
    UUID → Prop where
  | child (c : Configuration) (hc : c ∈ configs)
      (hp : c.parent_config_id = some root) : Descendant configs root c.id
  | step (c : Configuration) (y : UUID) (hc : c ∈ configs)
      (hy : Descendant configs root y) (hp : c.parent_config_id = some y) :
      Descendant configs root c.id

/-- The ids occurring in the entity set. -/
def idSet (configs : List Configuration) : Finset UUID :=
  (configs.map Configuration.id).toFinset

/-- Number of configuration ids not yet excluded: the termination
measure of `find_descendants`. -/
def freshCount (configs : List Configuration) (exc : List UUID) : Nat :=
  (idSet configs \ exc.toFinset).card

/-! ## Event bus (`EventEmitter`, events module lines 52–88) -/

/-- What one handler invocation produced: normal return, or a raised
exception that the dispatch loop caught and logged. -/
inductive HandlerOutcome where
  | ok
  | raised (msg : String)

/-- A subscribed handler: a name and a behaviour that may raise. -/
structure Handler where
  name : String
  run : DomainEvent → Except String Unit

/-- The emitter's dispatch table `self._handlers : dict[str, list]`,
keyed by event class name, in key-insertion order. -/
structure EventEmitter where
  handlers : List (String × List Handler)

/-- `self._handlers[event_type]`, with a missing key dispatching to
nobody. -/
def EventEmitter.handlersFor (em : EventEmitter) (event_type : String) :
    List Handler :=
  match em.handlers.find? (fun p => p.1 == event_type) with
  | some p => p.2
  | none => []

/-- `EventEmitter.on` (lines 58–62): create the key's list if absent,
then append the handler. -/
def EventEmitter.on (em : EventEmitter) (event_type : String) (h : Handler) :
    EventEmitter :=
  if (em.handlers.find? (fun p => p.1 == event_type)).isSome then
    ⟨updateFirst (fun p => p.1 == event_type)
      (fun p => (p.1, p.2 ++ [h])) em.handlers⟩
  else ⟨em.handlers ++ [(event_type, [h])]⟩

/-- The per-handler `try`/`except` body of `emit`: an exception from the
handler is caught at the dispatch boundary and only recorded. -/
def runCaught (h : Handler) (ev : DomainEvent) : HandlerOutcome :=
  match h.run ev with
  | .ok _ => .ok
  | .error msg => .raised msg

/-- `EventEmitter.emit` (lines 64–87): iterate the handlers registered
for the event's class name in order, invoking each inside a
`try`/`except`; the returned trace records every invocation and its
outcome, and `emit` itself always returns normally. -/
def EventEmitter.emit (em : EventEmitter) (ev : DomainEvent) :
    List (String × HandlerOutcome) :=
  (em.handlersFor ev.typeName).foldl
    (fun trace h => trace ++ [(h.name, runCaught h ev)]) []

/-! ## Entity construction (`Configuration`, entity lines 33–53) -/

/-- Pydantic construction of the `Configuration` entity.  The class
declares required typed fields but no validators or field constraints,
so for well-typed arguments pydantic performs no content checks; the
`Except` carries pydantic's `ValidationError` channel, which this class
never uses. -/
def Configuration.construct (id : UUID) (key label data_type : String)
    (description default_value : Option String)
    (validation_rules : List ValidationRule) (parent_config_id : Option UUID)
    (parent_conditions : List ParentCondition)
    (translations : List Translation) (active : Bool)
    (created_at updated_at : Timestamp) : Except String Configuration :=
  .ok
    { active := active
      created_at := created_at
      data_type := data_type
      default_value := default_value
      description := description
      id := id
      key := key
      label := label
      parent_config_id := parent_config_id
      parent_conditions := parent_conditions
      translations := translations
      updated_at := updated_at
      validation_rules := validation_rules }

/-! ## Concrete instances used in closed statements -/

/-- A stand-alone configuration (no parent, no sub-structures). -/
def cfgA : Configuration :=
  { active := true
    created_at := 0
    data_type := "string"
    default_value := none
    description := none
    id := 1
    key := "A"
    label := "A"
    parent_config_id := none
    parent_conditions := []
    translations := []
    updated_at := 0
    validation_rules := [] }

/-- A configuration whose parent reference points at id 99, an id that
no stored configuration has (a dangling parent reference, reachable
because delete does not cascade and create does not check parent
existence). -/
def cfgDangling : Configuration :=
  { cfgA with id := 1, key := "D", label := "D", parent_config_id := some 99 }

/-- The stored row that `_model_to_domain` reads back as
`cfgDangling`. -/
def rowDangling : ConfigurationModel :=
  { active := true
    created_at := 0
    data_type := "string"
    default_value := none
    description := none
    id := 1
    key := "D"
    label := "D"
    parent_config_id := some 99
    parent_conditions := none
    translations := none
    updated_at := 0
    validation_rules := none }

/-- A store holding exactly `rowDangling`, with no events yet. -/
def stDangling : RepoState := { rows := [rowDangling], events := [] }

/-- A stored row with key `"orig"` and id 1. -/
def rowA : ConfigurationModel :=
  { active := true
    created_at := 0
    data_type := "string"
    default_value := none
    description := none
    id := 1
    key := "orig"
    label := "L"
    parent_config_id := none
    parent_conditions := none
    translations := none
    updated_at := 0
    validation_rules := none }

/-- A store holding exactly `rowA`, with no events yet. -/
def stA : RepoState := { rows := [rowA], events := [] }

/-- The empty store. -/
def stEmpty : RepoState := { rows := [], events := [] }

/-- An inactive stored row with lower-case key `"max"`. -/
def rowMax : ConfigurationModel := { rowA with key := "max", active := false, id := 2 }

/-- A store holding exactly `rowMax`. -/
def stMax : RepoState := { rows := [rowMax], events := [] }

/-- Creation arguments with upper-case key `"MAX"`. -/
def cargsMAX : CreateArgs := { key := "MAX", label := "M", data_type := "string" }

/-- Creation arguments with lower-case key `"max"`. -/
def cargsmax : CreateArgs := { key := "max", label := "M", data_type := "string" }

/-- Creation arguments with key `"A"`. -/
def cargsA : CreateArgs := { key := "A", label := "A", data_type := "string" }

/-- Creation arguments colliding with `rowA`'s key `"orig"`. -/
def cargsDup : CreateArgs :=
  { key := "orig", label := "X", data_type := "string" }

/-- An update dictionary supplying both `key` and `label`. -/
def updKeyed : Updates := { key := some "K2", label := some "New" }

/-- An update dictionary supplying only `label`. -/
def updLbl : Updates := { label := some "New" }

/-- The entity produced by applying `updKeyed` (key popped) to `rowA`
at time 5. -/
def cUpdated : Configuration :=
  { active := true
    created_at := 0
    data_type := "string"
    default_value := none
    description := none
    id := 1
    key := "orig"
    label := "New"
    parent_config_id := none
    parent_conditions := []
    translations := []
    updated_at := 5
    validation_rules := [] }

/-- The entity stored as `rowA`, as read back by `_model_to_domain`. -/
def cRowA : Configuration :=
  { active := true
    created_at := 0
    data_type := "string"
    default_value := none
    description := none
    id := 1
    key := "orig"
    label := "L"
    parent_config_id := none
    parent_conditions := []
    translations := []
    updated_at := 0
    validation_rules := [] }

/-- A handler that returns normally. -/
def hGood : Handler := { name := "audit", run := fun _ => .ok () }

/-- A handler that raises. -/
def hBad : Handler := { name := "kafka", run := fun _ => .error "boom" }

/-- An emitter with a raising handler registered before a normal one
for `ConfigurationCreated`. -/
def emAB : EventEmitter :=
  ((EventEmitter.mk []).on "ConfigurationCreated" hBad).on
    "ConfigurationCreated" hGood

/-- A sample created event. -/
def evSample : DomainEvent := .created 1 "A" "A" "string" 0 "unknown" cfgA

/-! ## List helper lemmas -/

theorem decodeAll_length {f : α → Option β} :
    ∀ {l : List α} {l' : List β}, decodeAll f l = some l' →
      l'.length = l.length := by
  intro l
  induction l with
  | nil => intro l' h; simp [decodeAll] at h; simp [← h]
  | cons x xs ih =>
    intro l' h
    simp only [decodeAll] at h
    cases hfx : f x with
    | none => rw [hfx] at h; exact absurd h (by simp)
    | some y =>
      rw [hfx] at h
      cases hxs : decodeAll f xs with
      | none => rw [hxs] at h; exact absurd h (by simp)
      | some ys =>
        rw [hxs] at h
        simp only [Option.some.injEq] at h
        subst h
        simp [ih hxs]

theorem find?_updateFirst_self {p : α → Bool} {f : α → α}
    (hf : ∀ x, p (f x) = p x) :
    ∀ l : List α, List.find? p (updateFirst p f l) = (List.find? p l).map f := by
  intro l
  induction l with
  | nil => rfl
  | cons x xs ih =>
    by_cases hx : p x = true
    · simp [updateFirst, hx, List.find?_cons_of_pos, hf x]
    · have hx' : p x = false := by revert hx; cases p x <;> simp
      simp [updateFirst, hx', List.find?_cons_of_neg, ih]

theorem find?_updateFirst_of_ne {p q : α → Bool} {f : α → α}
    (hpq : ∀ x, p x = true → q x = false) (hq : ∀ x, q (f x) = q x) :
    ∀ l : List α, List.find? q (updateFirst p f l) = List.find? q l := by
  intro l
  induction l with
  | nil => rfl
  | cons x xs ih =>
    by_cases hx : p x = true
    · have : q x = false := hpq x hx
      simp [updateFirst, hx, List.find?_cons_of_neg, this, hq x]
    · have hx' : p x = false := by revert hx; cases p x <;> simp
      by_cases hqx : q x = true
      · simp [updateFirst, hx', List.find?_cons_of_pos, hqx]
      · have hqx' : q x = false := by revert hqx; cases q x <;> simp
        simp [updateFirst, hx', List.find?_cons_of_neg, hqx', ih]

theorem find?_append_of_none {p : α → Bool} :
    ∀ {l l' : List α}, List.find? p l = none →
      List.find? p (l ++ l') = List.find? p l' := by
  intro l
  induction l with
  | nil => intro l' _; rfl
  | cons x xs ih =>
    intro l' h
    rw [List.find?_cons] at h
    cases hx : p x with
    | true => rw [hx] at h; exact absurd h (by simp)
    | false =>
      rw [hx] at h
      rw [List.cons_append, List.find?_cons, hx]
      exact ih h

theorem find?_append_of_neg {p : α → Bool} {x : α} (hx : p x = false) :
    ∀ l : List α, List.find? p (l ++ [x]) = List.find? p l := by
  intro l
  induction l with
  | nil => simp [List.find?, hx]
  | cons y ys ih =>
    rw [List.cons_append, List.find?_cons, List.find?_cons]
    cases p y
    · simpa using ih
    · rfl

/-- A fold whose step never shrinks the accumulator keeps the initial
accumulator as a subset. -/
theorem foldl_superset {f : List UUID → Configuration → List UUID}
    (hf : ∀ a c, a ⊆ f a c) :
    ∀ (l : List Configuration) (a : List UUID), a ⊆ l.foldl f a := by
  intro l
  induction l with
  | nil => intro a; simp
  | cons c l ih => intro a; exact (hf a c).trans (ih (f a c))

/-- A fold preserves any invariant its step preserves. -/
theorem foldl_inv {f : β → α → β} {P : β → Prop}
    (l : List α) (hf : ∀ a c, c ∈ l → P a → P (f a c)) :
    ∀ {a : β}, P a → P (l.foldl f a) := by
  induction l with
  | nil => intro a ha; exact ha
  | cons c l ih =>
    intro a ha
    exact ih (fun a' c' hc' => hf a' c' (List.mem_cons_of_mem _ hc'))
      (hf a c (List.mem_cons_self _ _) ha)

/-! ## Correctness of the descendant traversal -/

theorem mem_childrenOf {configs : List Configuration} {p : UUID}
    {c : Configuration} :
    c ∈ childrenOf configs p ↔ c ∈ configs ∧ c.parent_config_id = some p := by
  simp [childrenOf, List.mem_filter]

theorem freshCount_le_of_subset {configs : List Configuration}
    {exc exc' : List UUID} (h : exc ⊆ exc') :
    freshCount configs exc' ≤ freshCount configs exc := by
  refine Finset.card_le_card (Finset.sdiff_subset_sdiff (Finset.Subset.refl _) ?_)
  intro x hx
  exact List.mem_toFinset.mpr (h (List.mem_toFinset.mp hx))

theorem freshCount_cons_lt {configs : List Configuration} {exc : List UUID}
    {x : UUID} (hx : x ∈ configs.map Configuration.id) (hnx : x ∉ exc) :
    freshCount configs (x :: exc) < freshCount configs exc := by
  apply Finset.card_lt_card
  have hsub : idSet configs \ (x :: exc).toFinset ⊆
      idSet configs \ exc.toFinset := by
    refine Finset.sdiff_subset_sdiff (Finset.Subset.refl _) ?_
    intro y hy
    exact List.mem_toFinset.mpr (List.mem_cons_of_mem _ (List.mem_toFinset.mp hy))
  rw [Finset.ssubset_iff_of_subset hsub]
  refine ⟨x, Finset.mem_sdiff.mpr ⟨List.mem_toFinset.mpr hx, ?_⟩, ?_⟩
  · intro hmem
    exact hnx (List.mem_toFinset.mp hmem)
  · intro hmem
    rcases Finset.mem_sdiff.mp hmem with ⟨_, hne⟩
    exact hne (List.mem_toFinset.mpr (List.mem_cons_self _ _))

theorem freshCount_eq_zero {configs : List Configuration} {exc : List UUID}
    (h : freshCount configs exc = 0) : ∀ c ∈ configs, c.id ∈ exc := by
  intro c hc
  have hempty : idSet configs \ exc.toFinset = ∅ := Finset.card_eq_zero.mp h
  by_contra hmem
  have hin : c.id ∈ idSet configs \ exc.toFinset := by
    refine Finset.mem_sdiff.mpr ⟨List.mem_toFinset.mpr ?_, ?_⟩
    · exact List.mem_map_of_mem _ hc
    · intro hx
      exact hmem (List.mem_toFinset.mp hx)
  rw [hempty] at hin
  exact absurd hin (Finset.not_mem_empty _)

theorem freshCount_le_length (configs : List Configuration) (exc : List UUID) :
    freshCount configs exc ≤ configs.length := by
  calc (idSet configs \ exc.toFinset).card
      ≤ (idSet configs).card := Finset.card_le_card Finset.sdiff_subset
    _ ≤ (configs.map Configuration.id).length := List.toFinset_card_le _
    _ = configs.length := List.length_map _ _

/-- The excluded set only ever grows. -/
theorem subset_findDescendants (configs : List Configuration) :
    ∀ (fuel : Nat) (p : UUID) (exc : List UUID),
      exc ⊆ findDescendants configs fuel p exc := by
  intro fuel
  induction fuel with
  | zero =>
    intro p exc
    simp only [findDescendants]
    exact List.Subset.refl _
  | succ n ih =>
    intro p exc
    simp only [findDescendants]
    refine foldl_superset (fun a c => ?_) _ exc
    by_cases hmem : c.id ∈ a
    · rw [if_pos hmem]
      exact List.Subset.refl _
    · rw [if_neg hmem]
      exact (List.subset_cons_self _ _).trans (ih c.id (c.id :: a))

/-- Soundness: everything the traversal adds is the root or one of its
transitive descendants. -/
theorem findDescendants_sound (configs : List Configuration) (root : UUID) :
    ∀ (fuel : Nat) (p : UUID) (exc : List UUID),
      (p = root ∨ Descendant configs root p) →
      (∀ x ∈ exc, x = root ∨ Descendant configs root x) →
      ∀ x ∈ findDescendants configs fuel p exc,
        x = root ∨ Descendant configs root x := by
  intro fuel
  induction fuel with
  | zero =>
    intro p exc _ hexc
    simp only [findDescendants]
    exact hexc
  | succ n ih =>
    intro p exc hp hexc
    simp only [findDescendants]
    refine foldl_inv (P := fun a => ∀ x ∈ a, x = root ∨ Descendant configs root x)
      _ ?_ hexc
    intro a c hc ha
    by_cases hmem : c.id ∈ a
    · rw [if_pos hmem]; exact ha
    · rw [if_neg hmem]
      have hcc := mem_childrenOf.mp hc
      have hcid : Descendant configs root c.id := by
        rcases hp with rfl | hpd
        · exact Descendant.child c hcc.1 hcc.2
        · exact Descendant.step c p hcc.1 hpd hcc.2
      refine ih c.id (c.id :: a) (Or.inr hcid) ?_
      intro x hx
      rcases List.mem_cons.mp hx with rfl | hxa
      · exact Or.inr hcid
      · exact ha x hxa

/-- Completeness of one fold level, given completeness one fuel level
down: every listed child's id lands in the result, the accumulator is
kept, and every freshly added id has all of its children's ids in the
result. -/
theorem fd_fold_aux (configs : List Configuration) (n : Nat) (p : UUID)
    (exc : List UUID)
    (ihn : ∀ (p' : UUID) (e : List UUID), freshCount configs e ≤ n →
      (∀ c ∈ configs, c.parent_config_id = some p' →
        c.id ∈ findDescendants configs n p' e) ∧
      (∀ q ∈ findDescendants configs n p' e, q ∉ e →
        ∀ c ∈ configs, c.parent_config_id = some q →
          c.id ∈ findDescendants configs n p' e))
    (hle : freshCount configs exc ≤ n + 1) :
    ∀ (l : List Configuration),
      (∀ c ∈ l, c ∈ configs ∧ c.parent_config_id = some p) →
      ∀ (a : List UUID), exc ⊆ a →
        freshCount configs a ≤ freshCount configs exc →
        (∀ q ∈ a, q ∉ exc →
          ∀ c ∈ configs, c.parent_config_id = some q → c.id ∈ a) →
        (∀ c ∈ l, c.id ∈ fdFold configs n l a) ∧
        a ⊆ fdFold configs n l a ∧
        (∀ q ∈ fdFold configs n l a, q ∉ exc →
          ∀ c ∈ configs, c.parent_config_id = some q →
            c.id ∈ fdFold configs n l a) := by
  intro l
  induction l with
  | nil =>
    intro _ a _ _ hinv
    exact ⟨by simp, List.Subset.refl _, hinv⟩
  | cons c l ihl =>
    intro hl a hsub hfr hinv
    have hc := hl c (List.mem_cons_self _ _)
    have hl' : ∀ c' ∈ l, c' ∈ configs ∧ c'.parent_config_id = some p :=
      fun c' h => hl c' (List.mem_cons_of_mem _ h)
    by_cases hmem : c.id ∈ a
    · have heq : fdFold configs n (c :: l) a = fdFold configs n l a := by
        simp [fdFold, List.foldl, if_pos hmem]
      rcases ihl hl' a hsub hfr hinv with ⟨h1, h2, h3⟩
      rw [heq]
      refine ⟨?_, h2, h3⟩
      intro c' hc'
      rcases List.mem_cons.mp hc' with rfl | h
      · exact h2 hmem
      · exact h1 c' h
    · have heq : fdFold configs n (c :: l) a =
          fdFold configs n l (findDescendants configs n c.id (c.id :: a)) := by
        simp [fdFold, List.foldl, if_neg hmem]
      have hidset : c.id ∈ configs.map Configuration.id :=
        List.mem_map_of_mem _ hc.1
      have hfr1 : freshCount configs (c.id :: a) ≤ n := by
        have hlt := freshCount_cons_lt hidset hmem
        omega
      rcases ihn c.id (c.id :: a) hfr1 with ⟨hA, hB⟩
      have hgrow : c.id :: a ⊆ findDescendants configs n c.id (c.id :: a) :=
        subset_findDescendants configs n c.id (c.id :: a)
      have hsub' : exc ⊆ findDescendants configs n c.id (c.id :: a) :=
        fun x hx => hgrow (List.mem_cons_of_mem _ (hsub hx))
      have hfr' : freshCount configs (findDescendants configs n c.id (c.id :: a)) ≤
          freshCount configs exc := freshCount_le_of_subset hsub'
      have hinv' : ∀ q ∈ findDescendants configs n c.id (c.id :: a), q ∉ exc →
          ∀ c' ∈ configs, c'.parent_config_id = some q →
            c'.id ∈ findDescendants configs n c.id (c.id :: a) := by
        intro q hq hqexc c' hc' hp'
        by_cases hqa : q ∈ c.id :: a
        · rcases List.mem_cons.mp hqa with rfl | hqa'
          · exact hA c' hc' hp'
          · exact hgrow (List.mem_cons_of_mem _ (hinv q hqa' hqexc c' hc' hp'))
        · exact hB q hq hqa c' hc' hp'
      rcases ihl hl' (findDescendants configs n c.id (c.id :: a)) hsub' hfr' hinv'
        with ⟨h1, h2, h3⟩
      rw [heq]
      refine ⟨?_, ?_, h3⟩
      · intro c' hc'
        rcases List.mem_cons.mp hc' with rfl | h
        · exact h2 (hgrow (List.mem_cons_self _ _))
        · exact h1 c' h
      · exact fun x hx => h2 (hgrow (List.mem_cons_of_mem _ hx))

/-- Completeness: with enough fuel, every child of the call's parent is
excluded, and every freshly excluded id has all of its children
excluded. -/
theorem findDescendants_complete (configs : List Configuration) :
    ∀ (fuel : Nat) (p : UUID) (exc : List UUID),
      freshCount configs exc ≤ fuel →
      (∀ c ∈ configs, c.parent_config_id = some p →
        c.id ∈ findDescendants configs fuel p exc) ∧
      (∀ q ∈ findDescendants configs fuel p exc, q ∉ exc →
        ∀ c ∈ configs, c.parent_config_id = some q →
          c.id ∈ findDescendants configs fuel p exc) := by
  intro fuel
  induction fuel with
  | zero =>
    intro p exc hle
    simp only [findDescendants]
    constructor
    · intro c hc _
      exact freshCount_eq_zero (Nat.le_zero.mp hle) c hc
    · intro q hq hq'
      exact absurd hq hq'
  | succ n ihn =>
    intro p exc hle
    have hbridge : findDescendants configs (n + 1) p exc =
        fdFold configs n (childrenOf configs p) exc := rfl
    rw [hbridge]
    have hl : ∀ c ∈ childrenOf configs p,
        c ∈ configs ∧ c.parent_config_id = some p :=
      fun c h => mem_childrenOf.mp h
    have hinv0 : ∀ q ∈ exc, q ∉ exc →
        ∀ c ∈ configs, c.parent_config_id = some q → c.id ∈ exc :=
      fun q hq hq' => absurd hq hq'
    rcases fd_fold_aux configs n p exc ihn hle (childrenOf configs p) hl exc
      (List.Subset.refl _) (Nat.le_refl _) hinv0 with ⟨h1, _, h3⟩
    constructor
    · intro c hc hp'
      exact h1 c (mem_childrenOf.mpr ⟨hc, hp'⟩)
    · exact h3

/-- The excluded set computed for `root` is exactly `root` together with
its transitive descendants. -/
theorem mem_excluded_iff (configs : List Configuration) (root : UUID)
    (x : UUID) :
    x ∈ findDescendants configs (configs.length + 1) root [root] ↔
      x = root ∨ Descendant configs root x := by
  constructor
  · intro hx
    refine findDescendants_sound configs root _ root [root] (Or.inl rfl) ?_ x hx
    intro y hy
    rcases List.mem_singleton.mp hy with rfl
    exact Or.inl rfl
  · intro hx
    have hle : freshCount configs [root] ≤ configs.length + 1 :=
      (freshCount_le_length configs [root]).trans (Nat.le_succ _)
    rcases findDescendants_complete configs (configs.length + 1) root [root] hle
      with ⟨hA, hB⟩
    rcases hx with rfl | hd
    · exact subset_findDescendants configs _ x [x]
        (List.mem_singleton_self _)
    · induction hd with
      | child c hc hp => exact hA c hc hp
      | step c y hc hy hp ihy =>
        by_cases hyr : y = root
        · subst hyr
          exact hA c hc hp
        · exact hB y ihy (by simp [hyr]) c hc hp

/-- Membership characterization of the resolved parent-options list. -/
theorem mem_resolveParentOptions (configs : List Configuration)
    (current : UUID) (c : Configuration) :
    c ∈ resolveParentOptions configs (some current) ↔
      c ∈ configs ∧ c.id ≠ current ∧ ¬ Descendant configs current c.id := by
  simp only [resolveParentOptions, List.mem_filter, decide_eq_true_eq,
    mem_excluded_iff]
  constructor
  · rintro ⟨hmem, hnot⟩
    exact ⟨hmem, fun h => hnot (Or.inl h), fun h => hnot (Or.inr h)⟩
  · rintro ⟨hmem, h1, h2⟩
    refine ⟨hmem, ?_⟩
    rintro (h | h)
    · exact h1 h
    · exact h2 h

/-! ## Event bus lemmas -/

theorem emit_trace (em : EventEmitter) (ev : DomainEvent) :
    em.emit ev = (em.handlersFor ev.typeName).map
      (fun h => (h.name, runCaught h ev)) := by
  have haux : ∀ (l : List Handler) (init : List (String × HandlerOutcome)),
      l.foldl (fun trace h => trace ++ [(h.name, runCaught h ev)]) init =
        init ++ l.map (fun h => (h.name, runCaught h ev)) := by
    intro l
    induction l with
    | nil => intro init; simp
    | cons h l ih => intro init; simp [List.foldl, ih]
  simpa [EventEmitter.emit] using haux (em.handlersFor ev.typeName) []

theorem handlersFor_on_same (em : EventEmitter) (t : String) (h : Handler) :
    (em.on t h).handlersFor t = em.handlersFor t ++ [h] := by
  rcases hfind : em.handlers.find? (fun p => p.1 == t) with _ | q
  · have hon : (em.on t h).handlers = em.handlers ++ [(t, [h])] := by
      simp [EventEmitter.on, hfind]
    simp [EventEmitter.handlersFor, hon, find?_append_of_none hfind, hfind,
      List.find?]
  · have hon : (em.on t h).handlers =
        updateFirst (fun p => p.1 == t) (fun p => (p.1, p.2 ++ [h]))
          em.handlers := by
      simp [EventEmitter.on, hfind]
    simp [EventEmitter.handlersFor, hon,
      find?_updateFirst_self (p := fun p : String × List Handler => p.1 == t)
        (f := fun p => (p.1, p.2 ++ [h])) (fun x => rfl) em.handlers, hfind]

theorem handlersFor_on_ne (em : EventEmitter) (t t' : String) (h : Handler)
    (hne : t' ≠ t) :
    (em.on t h).handlersFor t' = em.handlersFor t' := by
  have hpq : ∀ x : String × List Handler,
      (x.1 == t) = true → (x.1 == t') = false := by
    intro x hx
    have hxt : x.1 = t := by simpa using hx
    subst hxt
    simpa using fun habs => hne habs.symm
  rcases hfind : em.handlers.find? (fun p => p.1 == t) with _ | q
  · have hon : (em.on t h).handlers = em.handlers ++ [(t, [h])] := by
      simp [EventEmitter.on, hfind]
    simp [EventEmitter.handlersFor, hon, Ne.symm hne]
  · have hon : (em.on t h).handlers =
        updateFirst (fun p => p.1 == t) (fun p => (p.1, p.2 ++ [h]))
          em.handlers := by
      simp [EventEmitter.on, hfind]
    simp [EventEmitter.handlersFor, hon,
      find?_updateFirst_of_ne (p := fun p : String × List Handler => p.1 == t)
        (q := fun p : String × List Handler => p.1 == t')
        (f := fun p => (p.1, p.2 ++ [h])) hpq (fun x => rfl) em.handlers]

/-! ## Update helper lemmas -/

theorem applyUpdates_id (m : ConfigurationModel) (u : Updates)
    (now : Timestamp) : (applyUpdates m u now).id = m.id := by
  unfold applyUpdates
  split <;> rfl

theorem applyUpdates_key_none (m : ConfigurationModel) (u : Updates)
    (now : Timestamp) (hk : u.key = none) :
    (applyUpdates m u now).key = m.key := by
  unfold applyUpdates
  split
  · rfl
  · simp [hk]

theorem modelToDomain_fields {m : ConfigurationModel} {c : Configuration}
    (h : modelToDomain m = some c) :
    c.id = m.id ∧ c.key = m.key ∧ c.label = m.label ∧
    c.data_type = m.data_type ∧ c.updated_at = m.updated_at := by
  unfold modelToDomain at h
  rcases hv : (match m.validation_rules with
      | none => some []
      | some j => decodeValidationRules j) with _ | vrs
  · rw [hv] at h
    simp at h
  · rw [hv] at h
    rcases hp : (match m.parent_conditions with
        | none => some []
        | some j => decodeParentConditions j) with _ | pcs
    · rw [hp] at h
      simp at h
    · rw [hp] at h
      rcases ht : (match m.translations with
          | none => some []
          | some j => decodeTranslations j) with _ | trs
      · rw [ht] at h
        simp at h
      · rw [ht] at h
        simp only [Option.some.injEq] at h
        subst h
        exact ⟨rfl, rfl, rfl, rfl, rfl⟩

/-- Equation for a successful create: the fresh-key case with the
commit succeeding. -/
theorem create_configuration_success (st : RepoState) (args : CreateArgs)
    (newId : UUID) (now : Timestamp) (corr : Option String)
    (hk : getByKey st args.key = none) :
    create_configuration st args newId now corr true =
      (.ok (newEntity args newId now),
       { rows := st.rows ++ [domainToModel (newEntity args newId now) now now]
         events := st.events ++ [DomainEvent.created newId args.key args.label
           args.data_type now (corrOrUnknown corr)
           (newEntity args newId now)] }) := by
  unfold create_configuration
  rw [hk, modelToDomain_domainToModel]
  rfl

/-- Equation for a successful repository update. -/
theorem repo_update_success (st : RepoState) (config_id : UUID)
    (updates : Updates) (now : Timestamp) (corr : Option String)
    (m : ConfigurationModel) (upd : Configuration)
    (hm : getById st config_id = some m)
    (hd : modelToDomain (applyUpdates m updates now) = some upd) :
    repo_update st config_id updates now corr true =
      (.ok (some upd),
       { rows := updateFirst (fun r => r.id == config_id)
           (fun r => applyUpdates r updates now) st.rows
         events := st.events ++ [DomainEvent.updated upd.id upd.key upd.label
           upd.data_type upd.updated_at updates (corrOrUnknown corr)
           upd] }) := by
  simp [repo_update, hm, hd]

/-- Equation for a successful delete. -/
theorem delete_configuration_success (st : RepoState) (config_id : UUID)
    (corr : Option String) (m : ConfigurationModel) (ent : Configuration)
    (hm : getById st config_id = some m) (hd : modelToDomain m = some ent) :
    delete_configuration st config_id corr true =
      (.ok true,
       { rows := st.rows.eraseP (fun r => r.id == config_id)
         events := st.events ++ [DomainEvent.deleted ent.id ent.key ent.label
           ent.data_type ent.updated_at (corrOrUnknown corr) ent] }) := by
  simp [delete_configuration, hm, hd]

/-! ## Claims -/

/-- C1 (amended): `GetParentOptions(current_id)` resolves over the
entity set fetched by `List(limit=1000, offset=0)` — at most the first
1000 stored rows; over that fetched set it returns exactly the
configurations whose id is neither `current_id` nor a transitive
descendant of `current_id`, descendants computed by following
`parent_config_id` edges within the fetched set; and when `current_id`
does not occur in the fetched set and no fetched configuration
references it as parent, the result is every fetched configuration. -/
theorem C1_parent_options (st : RepoState) (current : UUID)
    (configs : List Configuration)
    (hfetch : (list_all st 1000 0).1 = some configs) :
    get_parent_options st (some current) =
      some (resolveParentOptions configs (some current)) ∧
    (∀ c, c ∈ resolveParentOptions configs (some current) ↔
      c ∈ configs ∧ c.id ≠ current ∧ ¬ Descendant configs current c.id) ∧
    (current ∉ configs.map Configuration.id →
      (∀ c ∈ configs, c.parent_config_id ≠ some current) →
      resolveParentOptions configs (some current) = configs) := by
  refine ⟨?_, mem_resolveParentOptions configs current, ?_⟩
  · unfold get_parent_options
    rw [hfetch]
  · intro habs hpar
    have hnd : ∀ x, ¬ Descendant configs current x := by
      intro x hx
      induction hx with
      | child c hc hp => exact hpar c hc hp
      | step c y hc hy hp ihy => exact ihy
    show configs.filter _ = configs
    rw [List.filter_eq_self]
    intro c hc
    rw [decide_eq_true_eq, mem_excluded_iff]
    rintro (heq | hdesc)
    · exact habs (heq ▸ List.mem_map_of_mem _ hc)
    · exact hnd _ hdesc

/-- C1 counterexample: a store holding one row with a dangling parent
reference to the absent id 99; `get_parent_options` for 99 returns the
empty list, not every stored configuration, refuting the absent-id
clause of the claim as stated. -/
theorem C1_counterexample :
    (99 ∉ stDangling.rows.map ConfigurationModel.id) ∧
    (list_all stDangling 1000 0).1 = some [cfgDangling] ∧
    get_parent_options stDangling (some 99) = some [] ∧
    some ([] : List Configuration) ≠ some [cfgDangling] := by
  refine ⟨by decide, rfl, rfl, by simp⟩

/-- C1 witness: for an absent id that nothing in the fetched set
references, every fetched configuration is returned. -/
theorem C1_witness :
    get_parent_options stA (some 99) =
      some (resolveParentOptions [cRowA] (some 99)) ∧
    resolveParentOptions [cRowA] (some 99) = [cRowA] :=
  ⟨(C1_parent_options stA 99 [cRowA] rfl).1,
   (C1_parent_options stA 99 [cRowA] rfl).2.2 (by decide) (by decide)⟩

/-- C2 (amended): every successful create appends exactly one
`ConfigurationCreated` event; every successful update appends exactly
one `ConfigurationUpdated` event whose changed-fields map equals the
supplied fields with a supplied `key` removed; every successful delete
appends exactly one `ConfigurationDeleted` event. -/
theorem C2_event_per_mutation :
    (∀ (st : RepoState) (args : CreateArgs) (newId : UUID) (now : Timestamp)
        (corr : Option String) (c : Configuration) (st' : RepoState),
      create_configuration st args newId now corr true = (.ok c, st') →
      ∃ e, st'.events = st.events ++ [e] ∧ e.isCreated = true) ∧
    (∀ (st : RepoState) (config_id : UUID) (u : Updates) (now : Timestamp)
        (corr : Option String) (c : Configuration) (st' : RepoState),
      update_configuration st config_id u now corr true = (.ok (some c), st') →
      ∃ e, st'.events = st.events ++ [e] ∧ e.isUpdated = true ∧
        e.changes? = some { u with key := none }) ∧
    (∀ (st : RepoState) (config_id : UUID) (corr : Option String)
        (st' : RepoState),
      delete_configuration st config_id corr true = (.ok true, st') →
      ∃ e, st'.events = st.events ++ [e] ∧ e.isDeleted = true) := by
  refine ⟨?_, ?_, ?_⟩
  · intro st args newId now corr c st' h
    rcases hk : getByKey st args.key with _ | m
    · rw [create_configuration_success st args newId now corr hk] at h
      rw [Prod.mk.injEq] at h
      obtain ⟨h1, h2⟩ := h
      subst h2
      exact ⟨_, rfl, rfl⟩
    · simp [create_configuration, hk] at h
  · intro st config_id u now corr c st' h
    unfold update_configuration at h
    rcases hm : getById st config_id with _ | m
    · simp [repo_update, hm] at h
    · rcases hd : modelToDomain (applyUpdates m { u with key := none } now)
        with _ | upd
      · simp [repo_update, hm, hd] at h
      · rw [repo_update_success st config_id { u with key := none } now corr
          m upd hm hd] at h
        rw [Prod.mk.injEq] at h
        obtain ⟨h1, h2⟩ := h
        subst h2
        exact ⟨_, rfl, rfl, rfl⟩
  · intro st config_id corr st' h
    rcases hm : getById st config_id with _ | m
    · simp [delete_configuration, hm] at h
    · rcases hd : modelToDomain m with _ | ent
      · simp [delete_configuration, hm, hd] at h
      · rw [delete_configuration_success st config_id corr m ent hm hd] at h
        rw [Prod.mk.injEq] at h
        obtain ⟨h1, h2⟩ := h
        subst h2
        exact ⟨_, rfl, rfl⟩

/-- C2 counterexample: an update supplying `key` and `label` succeeds,
but the emitted event's changed-fields map drops the supplied `key`, so
it does not equal the set of fields supplied to the update. -/
theorem C2_counterexample :
    (update_configuration stA 1 updKeyed 5 none true).1.toOption.map
        Option.isSome = some true ∧
    (update_configuration stA 1 updKeyed 5 none true).2.events.map
      DomainEvent.changes? = [some { label := some "New" }] ∧
    ({ label := some "New" } : Updates) ≠ updKeyed := by
  refine ⟨rfl, rfl, fun hcontra => ?_⟩
  have hk := congrArg Updates.key hcontra
  simp [updKeyed] at hk

/-- C2 witness: one event of the right kind per successful create,
update and delete at concrete inputs. -/
theorem C2_witness :
    (∃ e, (create_configuration stEmpty cargsA 1 0 none true).2.events =
        stEmpty.events ++ [e] ∧ e.isCreated = true) ∧
    (∃ e, (update_configuration stA 1 updLbl 5 none true).2.events =
        stA.events ++ [e] ∧ e.isUpdated = true ∧
        e.changes? = some { updLbl with key := none }) ∧
    (∃ e, (delete_configuration stA 1 none true).2.events =
        stA.events ++ [e] ∧ e.isDeleted = true) :=
  ⟨C2_event_per_mutation.1 stEmpty cargsA 1 0 none _ _ rfl,
   C2_event_per_mutation.2.1 stA 1 updLbl 5 none _ _ rfl,
   C2_event_per_mutation.2.2 stA 1 none _ rfl⟩

/-- C3: a duplicate-key create and an update or delete on a nonexistent
id return with the state (hence the event stream) unchanged; and when
persistence fails, every mutation leaves the state unchanged, so an
event is published only after a successful commit. -/
theorem C3_no_event_on_failure :
    (∀ (st : RepoState) (args : CreateArgs) (newId : UUID) (now : Timestamp)
        (corr : Option String) (ok : Bool),
      (getByKey st args.key).isSome = true →
      create_configuration st args newId now corr ok =
        (.error .duplicateKey, st)) ∧
    (∀ (st : RepoState) (config_id : UUID) (u : Updates) (now : Timestamp)
        (corr : Option String) (ok : Bool),
      getById st config_id = none →
      update_configuration st config_id u now corr ok = (.ok none, st)) ∧
    (∀ (st : RepoState) (config_id : UUID) (corr : Option String) (ok : Bool),
      getById st config_id = none →
      delete_configuration st config_id corr ok = (.ok false, st)) ∧
    (∀ (st : RepoState) (args : CreateArgs) (newId : UUID) (now : Timestamp)
        (corr : Option String),
      (create_configuration st args newId now corr false).2 = st) ∧
    (∀ (st : RepoState) (config_id : UUID) (u : Updates) (now : Timestamp)
        (corr : Option String),
      (update_configuration st config_id u now corr false).2 = st) ∧
    (∀ (st : RepoState) (config_id : UUID) (corr : Option String),
      (delete_configuration st config_id corr false).2 = st) := by
  refine ⟨?_, ?_, ?_, ?_, ?_, ?_⟩
  · intro st args newId now corr ok hdup
    rcases hk : getByKey st args.key with _ | m
    · rw [hk] at hdup
      simp at hdup
    · simp [create_configuration, hk]
  · intro st config_id u now corr ok h
    simp [update_configuration, repo_update, h]
  · intro st config_id corr ok h
    simp [delete_configuration, h]
  · intro st args newId now corr
    rcases hk : getByKey st args.key with _ | m
    · simp [create_configuration, hk, modelToDomain_domainToModel]
    · simp [create_configuration, hk]
  · intro st config_id u now corr
    rcases hm : getById st config_id with _ | m
    · simp [update_configuration, repo_update, hm]
    · rcases hd : modelToDomain (applyUpdates m { u with key := none } now)
        with _ | upd
      · simp [update_configuration, repo_update, hm, hd]
      · simp [update_configuration, repo_update, hm, hd]
  · intro st config_id corr
    rcases hm : getById st config_id with _ | m
    · simp [delete_configuration, hm]
    · rcases hd : modelToDomain m with _ | ent
      · simp [delete_configuration, hm, hd]
      · simp [delete_configuration, hm, hd]

/-- C3 witness at concrete inputs: duplicate create, update/delete of a
missing id, and each mutation under a failing commit. -/
theorem C3_witness :
    create_configuration stA cargsDup 7 9 none true =
      (.error .duplicateKey, stA) ∧
    update_configuration stA 42 {} 5 none true = (.ok none, stA) ∧
    delete_configuration stA 42 none true = (.ok false, stA) ∧
    (create_configuration stEmpty cargsA 1 0 none false).2 = stEmpty ∧
    (update_configuration stA 1 updLbl 5 none false).2 = stA ∧
    (delete_configuration stA 1 none false).2 = stA :=
  ⟨C3_no_event_on_failure.1 stA cargsDup 7 9 none true rfl,
   C3_no_event_on_failure.2.1 stA 42 {} 5 none true rfl,
   C3_no_event_on_failure.2.2.1 stA 42 none true rfl,
   C3_no_event_on_failure.2.2.2.1 stEmpty cargsA 1 0 none,
   C3_no_event_on_failure.2.2.2.2.1 stA 1 updLbl 5 none,
   C3_no_event_on_failure.2.2.2.2.2 stA 1 none⟩

/-- C5: a supplied `key` is silently dropped — the update behaves
exactly as without it — and after any successful update the stored key
and the returned entity's key equal the key stored before. -/
theorem C5_key_immutable (st : RepoState) (config_id : UUID) (u : Updates)
    (now : Timestamp) (corr : Option String) (ok : Bool) :
    update_configuration st config_id u now corr ok =
      update_configuration st config_id { u with key := none } now corr ok ∧
    ∀ c st', update_configuration st config_id u now corr ok =
        (.ok (some c), st') →
      ∃ m, getById st config_id = some m ∧ c.key = m.key ∧
        (getById st' config_id).map ConfigurationModel.key = some m.key := by
  constructor
  · rfl
  · intro c st' h
    unfold update_configuration at h
    rcases hm : getById st config_id with _ | m
    · simp [repo_update, hm] at h
    · rcases hd : modelToDomain (applyUpdates m { u with key := none } now)
        with _ | upd
      · simp [repo_update, hm, hd] at h
      · rcases ok with _ | _
        · simp [repo_update, hm, hd] at h
        · rw [repo_update_success st config_id { u with key := none } now corr
            m upd hm hd] at h
          rw [Prod.mk.injEq] at h
          obtain ⟨h1, h2⟩ := h
          injection h1 with h1
          injection h1 with h1
          subst h1
          subst h2
          refine ⟨m, rfl, ?_, ?_⟩
          · exact ((modelToDomain_fields hd).2.1).trans
              (applyUpdates_key_none m _ now rfl)
          · show ((List.find? (fun r => r.id == config_id)
              (updateFirst (fun r => r.id == config_id)
                (fun r => applyUpdates r { u with key := none } now)
                st.rows)).map ConfigurationModel.key) = some m.key
            rw [find?_updateFirst_self
              (p := fun r : ConfigurationModel => r.id == config_id)
              (f := fun r => applyUpdates r { u with key := none } now)
              (fun x => by simp [applyUpdates_id]) st.rows]
            have hm' : List.find? (fun r => r.id == config_id) st.rows =
                some m := hm
            rw [hm']
            simp [applyUpdates_key_none m { u with key := none } now rfl]

/-- C5 witness: updating with a supplied key `"K2"` leaves the stored
key `"orig"` unchanged. -/
theorem C5_witness :
    ∃ m, getById stA 1 = some m ∧ cUpdated.key = m.key ∧
      (getById (update_configuration stA 1 updKeyed 5 none true).2 1).map
        ConfigurationModel.key = some m.key :=
  (C5_key_immutable stA 1 updKeyed 5 none true).2 cUpdated _ rfl

/-- C6: a create whose key (case-sensitively) equals the key of any
stored row — active or inactive — fails with the duplicate-key error
and changes nothing; a create whose key matches no stored row
succeeds and stores that key. -/
theorem C6_duplicate_key :
    (∀ (st : RepoState) (args : CreateArgs) (newId : UUID) (now : Timestamp)
        (corr : Option String) (ok : Bool),
      (∃ m ∈ st.rows, m.key = args.key) →
      create_configuration st args newId now corr ok =
        (.error .duplicateKey, st)) ∧
    (∀ (st : RepoState) (args : CreateArgs) (newId : UUID) (now : Timestamp)
        (corr : Option String),
      (∀ m ∈ st.rows, m.key ≠ args.key) →
      ∃ c st', create_configuration st args newId now corr true =
        (.ok c, st') ∧ c.key = args.key) := by
  constructor
  · rintro st args newId now corr ok ⟨m, hm, hkey⟩
    rcases hk : getByKey st args.key with _ | m'
    · exfalso
      have hnone := List.find?_eq_none.mp hk m hm
      exact hnone (by simp [hkey])
    · simp [create_configuration, hk]
  · intro st args newId now corr hall
    have hk : getByKey st args.key = none := by
      apply List.find?_eq_none.mpr
      intro m hm
      simp [hall m hm]
    exact ⟨_, _, create_configuration_success st args newId now corr hk, rfl⟩

/-- C6 witness: an inactive row with key `"max"` blocks a create with
key `"max"` but not one with key `"MAX"`. -/
theorem C6_witness :
    create_configuration stMax cargsmax 9 0 none true =
      (.error .duplicateKey, stMax) ∧
    ∃ c st', create_configuration stMax cargsMAX 9 0 none true =
      (.ok c, st') ∧ c.key = cargsMAX.key :=
  ⟨C6_duplicate_key.1 stMax cargsmax 9 0 none true
      ⟨rowMax, List.mem_singleton_self _, rfl⟩,
   C6_duplicate_key.2 stMax cargsMAX 9 0 none (by decide)⟩

/-- C10: the `ConfigurationDeleted` event's `deleted_at` equals the
deleted entity's stored `updated_at` (its last modification time). -/
theorem C10_deleted_at (st : RepoState) (config_id : UUID)
    (corr : Option String) (st' : RepoState) :
    delete_configuration st config_id corr true = (.ok true, st') →
    ∃ m e, getById st config_id = some m ∧ st'.events = st.events ++ [e] ∧
      e.deleted_at? = some m.updated_at := by
  intro h
  rcases hm : getById st config_id with _ | m
  · simp [delete_configuration, hm] at h
  · rcases hd : modelToDomain m with _ | ent
    · simp [delete_configuration, hm, hd] at h
    · rw [delete_configuration_success st config_id corr m ent hm hd] at h
      rw [Prod.mk.injEq] at h
      obtain ⟨h1, h2⟩ := h
      subst h2
      refine ⟨m, _, rfl, rfl, ?_⟩
      show some ent.updated_at = some m.updated_at
      rw [(modelToDomain_fields hd).2.2.2.2]

/-- C10 witness: deleting the stored row with `updated_at = 0` emits an
event carrying `deleted_at = 0`. -/
theorem C10_witness :
    ∃ m e, getById stA 1 = some m ∧
      (delete_configuration stA 1 none true).2.events = stA.events ++ [e] ∧
      e.deleted_at? = some m.updated_at :=
  C10_deleted_at stA 1 none _ rfl

/-- C7: serializing a Configuration to the storage representation and
converting back yields `validation_rules`, `parent_conditions` and
`translations` lists field-for-field equal to the originals, in the
same order. -/
theorem C7_storage_roundtrip (c : Configuration) (t u : Timestamp) :
    ∃ c', modelToDomain (domainToModel c t u) = some c' ∧
      c'.validation_rules = c.validation_rules ∧
      c'.parent_conditions = c.parent_conditions ∧
      c'.translations = c.translations :=
  ⟨{ c with created_at := t, updated_at := u },
   modelToDomain_domainToModel c t u, rfl, rfl, rfl⟩

/-- C9 (amended): constructing a `Configuration` entity never fails with
a `ValidationError` for content reasons — empty `key`, `label` or
`data_type`, and `data_type` values outside `{string, number, date,
list}`, are all accepted, since the entity class declares no validators;
construction succeeds for every argument combination. -/
theorem C9_construction_no_validation (id : UUID) (key label data_type : String)
    (description default_value : Option String) (vrs : List ValidationRule)
    (pid : Option UUID) (pcs : List ParentCondition) (trs : List Translation)
    (active : Bool) (t u : Timestamp) :
    ∃ c, Configuration.construct id key label data_type description
        default_value vrs pid pcs trs active t u = .ok c ∧
      c.key = key ∧ c.label = label ∧ c.data_type = data_type :=
  ⟨_, rfl, rfl, rfl, rfl⟩

/-- C9 counterexample: construction with empty `key` and `label` and an
out-of-set `data_type` succeeds rather than failing with a
`ValidationError`, refuting the claim as stated. -/
theorem C9_counterexample :
    Configuration.construct 1 "" "" "bogus" none none [] none [] [] true 0 0 =
      .ok { active := true, created_at := 0, data_type := "bogus",
            default_value := none, description := none, id := 1, key := "",
            label := "", parent_config_id := none, parent_conditions := [],
            translations := [], updated_at := 0, validation_rules := [] } := rfl

/-- C8: `list_all` reports `total` equal to the number of all stored
rows regardless of `limit` and `offset`, and returns at most `limit`
items. -/
theorem C8_pagination_total (st : RepoState) (limit offset : Nat) :
    (list_all st limit offset).2 = st.rows.length ∧
    ∀ items, (list_all st limit offset).1 = some items →
      items.length ≤ limit := by
  refine ⟨rfl, ?_⟩
  intro items h
  have hlen : items.length = ((st.rows.drop offset).take limit).length :=
    decodeAll_length h
  rw [hlen, List.length_take]
  exact min_le_left _ _

/-- C8 witness at a concrete store and page. -/
theorem C8_witness :
    (list_all stA 1 0).2 = stA.rows.length ∧
    ([cRowA] : List Configuration).length ≤ 1 :=
  ⟨(C8_pagination_total stA 1 0).1, (C8_pagination_total stA 1 0).2 [cRowA] rfl⟩

/-- C4: every handler registered for the published event's kind is
invoked, in registration order, even when handlers raise: the emit trace
lists exactly the registered handlers, `emit` always returns normally
(exceptions are caught at the dispatch boundary), `on` appends to the
kind's handler list, and registration for one kind leaves other kinds'
handler lists unchanged. -/
theorem C4_event_bus_dispatch (em : EventEmitter) (ev : DomainEvent)
    (t t' : String) (h : Handler) :
    (em.emit ev).map Prod.fst =
      (em.handlersFor ev.typeName).map Handler.name ∧
    (em.on t h).handlersFor t = em.handlersFor t ++ [h] ∧
    (t' ≠ t → (em.on t h).handlersFor t' = em.handlersFor t') := by
  refine ⟨?_, handlersFor_on_same em t h,
    fun hne => handlersFor_on_ne em t t' h hne⟩
  rw [emit_trace]
  simp [List.map_map, Function.comp]

/-- C4 witness: a raising handler registered before a normal one does
not stop dispatch, and registering under another kind leaves this
kind's handlers unchanged. -/
theorem C4_witness :
    ((emAB.emit evSample).map Prod.fst =
      (emAB.handlersFor "ConfigurationCreated").map Handler.name) ∧
    (emAB.on "ConfigurationUpdated" hGood).handlersFor "ConfigurationCreated" =
      emAB.handlersFor "ConfigurationCreated" :=
  ⟨(C4_event_bus_dispatch emAB evSample "x" "y" hGood).1,
   (C4_event_bus_dispatch emAB evSample "ConfigurationUpdated"
     "ConfigurationCreated" hGood).2.2 (by decide)⟩

end ConfigMgmt
